import Mathlib

/-!
A verification development for the `compress-images` batch tool
(`src/compress_images.py`).  The Python source is shallowly embedded: pure
helpers become Lean functions, the filesystem-touching parts become explicit
state passing over a small filesystem model, and Python exceptions become
`Except` values.  The theorems at the end of the file settle the claims about
the Filter, Walker, Backup Manager, Compressor, Dispatcher, configuration
layering and Reporter statistics.
-/

set_option maxHeartbeats 1000000

/-- A filesystem path, as its list of components.  `os.path.join(dir, name)`
appends one component; `os.path.dirname` drops the last component;
`os.path.basename` is the last component. -/
abbrev FPath := List String

/-- `os.path.basename`, on component lists. -/
def basename (p : FPath) : String := p.getLastD ""

/-- `os.path.dirname`, on component lists. -/
def dirname (p : FPath) : FPath := p.dropLast

/-- A path rendered as the string Python would pass around (components joined
with the separator). -/
def pathToString (p : FPath) : String := String.intercalate "/" p

/-- Python's `str.endswith`. -/
def pyEndswith (s suf : String) : Bool := List.isSuffixOf suf.data s.data

/-- Python's `str.lower` (ASCII case folding suffices for the model). -/
def pyLower (s : String) : String := String.mk (s.data.map Char.toLower)

/-- Substring test, Python's `needle in hay` on strings. -/
def listIsInfixOfB : List Char → List Char → Bool
  | n, [] => n.isEmpty
  | n, h :: t => List.isPrefixOf n (h :: t) || listIsInfixOfB n t

/-- Python's `needle in hay` for strings. -/
def substrOf (needle hay : String) : Bool := listIsInfixOfB needle.data hay.data

/-- Python's `str.startswith`. -/
def pyStartswith (s pre : String) : Bool := List.isPrefixOf pre.data s.data

/-- `os.path.splitext`, following CPython: split at the last dot, unless every
character before that dot is itself a dot (then there is no extension). -/
def splitext (p : String) : String × String :=
  let cs := p.data
  match ((List.range cs.length).filter (fun i => cs.getD i ' ' == '.')).getLast? with
  | none => (p, "")
  | some i =>
    if (List.range i).all (fun j => cs.getD j ' ' == '.') then (p, "")
    else (String.mk (cs.take i), String.mk (cs.drop i))

/-- The module-level `image_extensions` list from the source. -/
def image_extensions : List String :=
  [".jpg", ".jpeg", ".png", ".webp", ".bmp", ".tiff", ".gif", ".avif", ".heic"]

/-! ### Translated status strings

The status texts come from `t(...)` lookups in `language/<code>.yaml`, which is
not part of `src/`.  Modelled from the spec: the compressed/skipped statuses
are fixed strings, the skipped status contains the skip keyword, and the
compression-error status is prefixed with the error keyword and carries the
underlying error text, matching the Reporter classification the spec
describes. -/

/-- Modelled from the spec: `t("status.compressed")`. -/
def t_status_compressed : String := "Compressed"

/-- Modelled from the spec: `t("status.skipped")`, the already-backed-up skip
status; it contains the skip keyword. -/
def t_status_skipped : String := "Skipped: already backed up"

/-- Modelled from the spec: `t("status.skip_keyword")`, the substring the
Reporter searches for when counting skipped records. -/
def t_status_skip_keyword : String := "Skipped"

/-- Modelled from the spec: `t("status.error_keyword")`, the status marker the
Reporter matches as a status text word at the start of compression-error
records. -/
def t_status_error_keyword : String := "Error"

/-- Modelled from the spec: `t("status.compress_error").format(error=e)`;
prefixed with the error keyword and carrying the error text. -/
def t_status_compress_error (e : String) : String := "Error: compression failed: " ++ e

/-- Modelled from the spec: `t("status.backup_error").format(error=e)`. -/
def t_status_backup_error (e : String) : String := "Backup failed: " ++ e

/-! ### The Filter: `_should_skip` -/

/-- `_should_skip` from the source: strip the extension, then skip when the
base name ends with the original-suffix (and `skip_original` is set), or with
the skip-suffix (and `skip_skip` is set). -/
def _should_skip (filename : String) (original_suffix : String) (skip_suffix : String)
    (skip_original : Bool) (skip_skip : Bool) : Bool :=
  let name := (splitext filename).1
  if skip_original && pyEndswith name original_suffix then true
  else if skip_skip && pyEndswith name skip_suffix then true
  else false

example : splitext "a.jpg" = ("a", ".jpg") := by decide
example : splitext ".bashrc" = (".bashrc", "") := by decide
example : splitext "a.b.c" = ("a.b", ".c") := by decide
example : _should_skip "photo_original.jpg" "_original" "_skip" true true = true := by decide
example : _should_skip "photo.jpg" "_original" "_skip" true true = false := by decide
example : _should_skip "photo_skip.png" "_original" "_skip" true true = true := by decide
example : _should_skip "photo_original.jpg" "_original" "_skip" false false = false := by decide

/-! ### Filesystem model

The filesystem is an association list from paths to nodes; the first binding
for a path wins, so writing is prepending.  The stdlib calls the source uses
(`os.makedirs(..., exist_ok=True)`, `os.path.exists`, `os.path.getsize`,
`shutil.copy2`, and the codec's open/save) are modelled over it, raising
modelled Python exceptions through `Except`. -/

/-- File content and metadata: the byte string and the modification time
(`shutil.copy2` preserves the latter). -/
structure FileData where
  bytes : List Nat
  mtime : Nat
deriving DecidableEq

/-- A filesystem node: a directory or a regular file. -/
inductive FNode where
  | dir : FNode
  | file : FileData → FNode
deriving DecidableEq

/-- The filesystem state. -/
abbrev FS := List (FPath × FNode)

/-- Look a path up in the filesystem (first binding wins). -/
def fsFind (fs : FS) (p : FPath) : Option FNode :=
  match fs with
  | [] => none
  | (q, n) :: rest => if q = p then some n else fsFind rest p

/-- Write a node at a path (prepend, shadowing any earlier binding). -/
def fsInsert (fs : FS) (p : FPath) (n : FNode) : FS := (p, n) :: fs

/-- The Python exceptions the embedded code can observe. -/
inductive PyExn where
  | fileExists : PyExn
  | fileNotFound : PyExn
  | isADirectory : PyExn
  | codecError : String → PyExn
deriving DecidableEq

/-- The exception text interpolated into status strings by `.format(error=e)`. -/
def PyExn.render : PyExn → String
  | .fileExists => "FileExistsError"
  | .fileNotFound => "FileNotFoundError"
  | .isADirectory => "IsADirectoryError"
  | .codecError msg => msg

/-- `os.makedirs(p, exist_ok=True)` at the backup-dir call site (the parent is
the directory holding the file being backed up, which exists): succeeds and
leaves the filesystem unchanged when `p` is already a directory, raises
`FileExistsError` when a non-directory occupies `p`, and creates the directory
otherwise. -/
def makedirs (fs : FS) (p : FPath) : Except PyExn FS :=
  match fsFind fs p with
  | some FNode.dir => Except.ok fs
  | some (FNode.file _) => Except.error PyExn.fileExists
  | none => Except.ok (fsInsert fs p FNode.dir)

/-- `shutil.copy2(src, dst)`: copy bytes and metadata; raises when the source
is missing or is a directory. -/
def copy2 (fs : FS) (src dst : FPath) : Except PyExn FS :=
  match fsFind fs src with
  | some (FNode.file fd) => Except.ok (fsInsert fs dst (FNode.file fd))
  | some FNode.dir => Except.error PyExn.isADirectory
  | none => Except.error PyExn.fileNotFound

/-- The external image codec (PIL): whether a byte string parses as an image,
and the re-encode of a byte string at a quality level (which may itself fail
with a codec error). -/
structure Codec where
  decodes : List Nat → Bool
  encode : List Nat → Nat → Except String (List Nat)

/-- `_is_image` from the source (`Image.open` + `verify`), applied to the data
found at the candidate path. -/
def _is_image (codec : Codec) (fd : FileData) : Bool := codec.decodes fd.bytes

/-- A wall-clock instant, for `datetime.now()`. -/
structure PyDateTime where
  year : Nat
  month : Nat
  day : Nat
  hour : Nat
  minute : Nat
  second : Nat
deriving DecidableEq

/-- Zero-pad to two digits. -/
def pad2 (n : Nat) : String := if n < 10 then "0" ++ toString n else toString n

/-- Zero-pad to four digits. -/
def pad4 (n : Nat) : String :=
  if n < 10 then "000" ++ toString n
  else if n < 100 then "00" ++ toString n
  else if n < 1000 then "0" ++ toString n
  else toString n

/-- `now.strftime('%Y-%m-%d %H:%M:%S')`. -/
def strftimeFull (d : PyDateTime) : String :=
  pad4 d.year ++ "-" ++ pad2 d.month ++ "-" ++ pad2 d.day ++ " " ++
    pad2 d.hour ++ ":" ++ pad2 d.minute ++ ":" ++ pad2 d.second

/-- An epoch-like number for the instant, used as the modification time of
files written at that instant. -/
def epochOf (d : PyDateTime) : Nat :=
  ((((d.year * 12 + d.month) * 31 + d.day) * 24 + d.hour) * 60 + d.minute) * 60 + d.second

/-! ### Backup Manager: `_backup_image` -/

/-- The backup directory computed by `_backup_image`:
`os.path.join(os.path.dirname(file_path), backup_folder)`. -/
def backupDirOf (file_path : FPath) (backup_folder : String) : FPath :=
  dirname file_path ++ [backup_folder]

/-- The backup destination computed by `_backup_image`:
`os.path.join(backup_dir, f'{name}{original_suffix}{ext}')`. -/
def backupPathOf (file_path : FPath) (backup_folder : String) (original_suffix : String) : FPath :=
  let ne := splitext (basename file_path)
  backupDirOf file_path backup_folder ++ [ne.1 ++ original_suffix ++ ne.2]

/-- `_backup_image` from the source.  `os.makedirs` runs outside any `try`, so
its exception is an `Except.error`; the `shutil.copy2` failure is caught and
returned as data, exactly as in the source. -/
def _backup_image (fs : FS) (file_path : FPath) (backup_folder : String)
    (original_suffix : String) : Except PyExn ((Bool × String) × FS) :=
  let backup_dir := backupDirOf file_path backup_folder
  match makedirs fs backup_dir with
  | Except.error e => Except.error e
  | Except.ok fs1 =>
    let backup_path := backupPathOf file_path backup_folder original_suffix
    if (fsFind fs1 backup_path).isSome then
      Except.ok ((false, t_status_skipped), fs1)
    else
      match copy2 fs1 file_path backup_path with
      | Except.ok fs2 => Except.ok ((true, pathToString backup_path), fs2)
      | Except.error e => Except.ok ((false, t_status_backup_error (PyExn.render e)), fs1)

/-! ### Compressor: `_compress_image` -/

/-- One result record, the six-tuple returned by `_compress_image`. -/
structure ImageResult where
  file_path : FPath
  size_before : Nat
  size_after : Nat
  status : String
  ext : String
  timestamp : String
deriving DecidableEq

/-- The body of the `try` block in `_compress_image`: read the size, open and
re-save the image in place at the configured quality, read the new size.  Any
step may raise. -/
def compressAttempt (codec : Codec) (epochNow : Nat) (fs : FS) (file_path : FPath)
    (compress_quality : Nat) : Except PyExn (Nat × Nat × FS) :=
  match fsFind fs file_path with
  | some (FNode.file fd) =>
    if codec.decodes fd.bytes then
      match codec.encode fd.bytes compress_quality with
      | Except.ok newBytes =>
        Except.ok (fd.bytes.length, newBytes.length,
          fsInsert fs file_path (FNode.file ⟨newBytes, epochNow⟩))
      | Except.error msg => Except.error (PyExn.codecError msg)
    else Except.error (PyExn.codecError "cannot identify image file")
  | some FNode.dir => Except.error PyExn.isADirectory
  | none => Except.error PyExn.fileNotFound

/-- The `try`/`except` around the compression attempt: a success record with
both sizes and a timestamp, or an error record with zero sizes, the
compression-error status and a timestamp. -/
def compressPhase (codec : Codec) (now : PyDateTime) (fs : FS) (file_path : FPath)
    (compress_quality : Nat) (ext_lower : String) : ImageResult × FS :=
  match compressAttempt codec (epochOf now) fs file_path compress_quality with
  | Except.ok (size_before, size_after, fs2) =>
    (⟨file_path, size_before, size_after, t_status_compressed, ext_lower, strftimeFull now⟩, fs2)
  | Except.error e =>
    (⟨file_path, 0, 0, t_status_compress_error (PyExn.render e), ext_lower, strftimeFull now⟩, fs)

/-- `_compress_image` from the source: optional backup first — a failed or
skipped backup short-circuits to a zero-size record with the backup's status
and an empty timestamp, and an exception from the backup (the unguarded
`os.makedirs`) propagates — then the guarded compression attempt. -/
def _compress_image (codec : Codec) (now : PyDateTime) (fs : FS) (file_path : FPath)
    (compress_quality : Nat) (backup : Bool) (backup_folder : String)
    (original_suffix : String) : Except PyExn (ImageResult × FS) :=
  let ext_lower := pyLower (splitext (basename file_path)).2
  if backup then
    match _backup_image fs file_path backup_folder original_suffix with
    | Except.error e => Except.error e
    | Except.ok ((backed_up, backup_status), fs1) =>
      if backed_up then
        Except.ok (compressPhase codec now fs1 file_path compress_quality ext_lower)
      else
        Except.ok (⟨file_path, 0, 0, backup_status, ext_lower, ""⟩, fs1)
  else
    Except.ok (compressPhase codec now fs file_path compress_quality ext_lower)

/-! ### Walker: `os.walk` and `_get_all_images`

A directory tree carries the regular files of each directory (name and data)
and the named subdirectories.  The subdirectory list is its own inductive so
that the walk is structurally recursive. -/

mutual

/-- A directory: its regular files and its subdirectories. -/
inductive DirTree where
  | node : List (String × FileData) → SubDirs → DirTree

/-- A list of named subdirectories. -/
inductive SubDirs where
  | nil : SubDirs
  | cons : String → DirTree → SubDirs → SubDirs

end

/-- The subdirectory names, `dirnames` in `os.walk`. -/
def subdirNames : SubDirs → List String
  | SubDirs.nil => []
  | SubDirs.cons name _ rest => name :: subdirNames rest

/-- One `os.walk` entry: `(foldername, dirnames, filenames)`, with each file's
data alongside its name. -/
abbrev WalkEntry := FPath × List String × List (String × FileData)

mutual

/-- `os.walk(root)`, top-down: the directory itself, then its subtrees.  The
walk visits every subdirectory; pruning would require mutating `dirnames`,
which the source does not do. -/
def walk (p : FPath) : DirTree → List WalkEntry
  | DirTree.node files subs => (p, subdirNames subs, files) :: walkSubs p subs

/-- The walk of a list of subdirectories. -/
def walkSubs (p : FPath) : SubDirs → List WalkEntry
  | SubDirs.nil => []
  | SubDirs.cons name t rest => walk (p ++ [name]) t ++ walkSubs p rest

end

/-- `_get_all_images` from the source: for every walked directory whose own
base name does not case-insensitively equal the backup folder name, keep the
files with a supported extension that the Filter does not skip and that the
codec can parse. -/
def _get_all_images (codec : Codec) (root_path : FPath) (tree : DirTree)
    (backup_folder : String) (original_suffix : String) (skip_suffix : String)
    (skip_original : Bool) (skip_skip : Bool) : List FPath :=
  (walk root_path tree).flatMap fun entry =>
    if pyLower (basename entry.1) == pyLower backup_folder then []
    else entry.2.2.filterMap fun f =>
      let ext := pyLower (splitext f.1).2
      if image_extensions.contains ext
          && !_should_skip f.1 original_suffix skip_suffix skip_original skip_skip
          && _is_image codec f.2 then
        some (entry.1 ++ [f.1])
      else none

/-! ### Dispatcher: the worker-pool loop of `_process_directory`

The pool runs one `_compress_image` per file and appends one record per
completed future; `future.result()` re-raises any exception a task leaked, so
an `Except.error` aborts the collection.  The sequential model below processes
the files in order, which preserves the record count and the abort behaviour
the claims are about.  As in the source, the task is bound with
`compress_quality`, `backup` and `backup_folder` only, leaving
`original_suffix` at its default `'_original'`. -/

/-- The dispatch loop: one result record per file, or the first leaked
exception. -/
def dispatchAll (codec : Codec) (now : PyDateTime) (fs : FS) (files : List FPath)
    (compress_quality : Nat) (backup : Bool) (backup_folder : String) :
    Except PyExn (List ImageResult × FS) :=
  match files with
  | [] => Except.ok ([], fs)
  | f :: rest =>
    match _compress_image codec now fs f compress_quality backup backup_folder "_original" with
    | Except.error e => Except.error e
    | Except.ok (r, fs1) =>
      match dispatchAll codec now fs1 rest compress_quality backup backup_folder with
      | Except.error e => Except.error e
      | Except.ok (rs, fs2) => Except.ok (r :: rs, fs2)

/-! ### Configuration layering: `get_param`

`get_param` reads `getattr(args, key)`, falling back to `config.get(key)` and
then to the call-site default.  But `args` comes out of `argparse`, which has
already substituted each flag's own parser default when the flag is absent
from the command line. -/

/-- The `get_param` closure from `compress_images`: the CLI value if present,
else the config-file value if present, else the call-site default. -/
def get_param {α : Type} (cli_value : Option α) (config_value : Option α)
    (dflt : Option α) : Option α :=
  match cli_value with
  | some v => some v
  | none =>
    match config_value with
    | some v => some v
    | none => dflt

/-- What `getattr(args, key)` yields: the value given on the command line, or
the `argparse` default declared for the flag (`none` only when the flag has no
parser default, as for `--path`). -/
def argparseResolve {α : Type} (cliProvided : Option α) (parserDefault : Option α) : Option α :=
  match cliProvided with
  | some v => some v
  | none => parserDefault

/-- The effective value of one parameter: `get_param` applied to the
`argparse`-resolved attribute, the config-file entry, and the call-site
default. -/
def effectiveParam {α : Type} (cliProvided : Option α) (parserDefault : Option α)
    (config_value : Option α) (dflt : Option α) : Option α :=
  get_param (argparseResolve cliProvided parserDefault) config_value dflt

/-! ### Reporter statistics

The counts computed in `_process_directory` (lines 333-338): success by status
equality, skipped by keyword containment, error by keyword prefix, and
unreadable by subtracting the skipped count from the empty-timestamp count. -/

/-- `r[3] == t("status.compressed")`. -/
def isSuccessRec (r : ImageResult) : Bool := r.status == t_status_compressed

/-- `t("status.skip_keyword") in r[3]`. -/
def isSkipRec (r : ImageResult) : Bool := substrOf t_status_skip_keyword r.status

/-- `r[3].startswith(t("status.error_keyword"))`. -/
def isErrorRec (r : ImageResult) : Bool := pyStartswith r.status t_status_error_keyword

/-- `r[5] == ''`: the record never reached compression. -/
def tsEmptyRec (r : ImageResult) : Bool := r.timestamp == ""

/-- The record-level unreadable category: empty timestamp and not a named
skip (the aggregate subtraction realises exactly this on outcome records). -/
def isUnreadableRec (r : ImageResult) : Bool := tsEmptyRec r && !isSkipRec r

/-- `count_success` from `_process_directory`. -/
def count_success (results : List ImageResult) : Nat :=
  (results.filter isSuccessRec).length

/-- `count_skipped` from `_process_directory`. -/
def count_skipped (results : List ImageResult) : Nat :=
  (results.filter isSkipRec).length

/-- `count_error` from `_process_directory`. -/
def count_error (results : List ImageResult) : Nat :=
  (results.filter isErrorRec).length

/-- `count_unreadable` from `_process_directory`: the empty-timestamp count
minus the skipped count. -/
def count_unreadable (results : List ImageResult) : Nat :=
  (results.filter tsEmptyRec).length - count_skipped results

/-- `count_original_backups` from `_process_directory`. -/
def count_original_backups (results : List ImageResult) : Nat :=
  (results.filter (fun r => r.status == t_status_skipped)).length

/-- The shapes of record a `_compress_image` call can return, with the
spec's assumption that an interpolated error text does not collide with the
skip keyword. -/
def IsOutcome (r : ImageResult) : Prop :=
  (r.status = t_status_compressed ∧ r.timestamp ≠ "") ∨
  (r.status = t_status_skipped ∧ r.timestamp = "") ∨
  (∃ e, substrOf t_status_skip_keyword (t_status_backup_error e) = false ∧
    r.status = t_status_backup_error e ∧ r.timestamp = "") ∨
  (∃ e, substrOf t_status_skip_keyword (t_status_compress_error e) = false ∧
    r.status = t_status_compress_error e ∧ r.timestamp ≠ "")

deriving instance DecidableEq for Except

/-! ### Concrete objects used to evaluate the development on closed inputs -/

/-- A concrete codec: any nonempty byte string parses, and re-encoding
prepends a byte (so encoded output is never empty). -/
def exCodec : Codec := ⟨fun bs => decide (0 < bs.length), fun bs _ => Except.ok (1 :: bs)⟩

/-- A directory tree holding a backup-named folder `B` with a direct image
file and a nested subdirectory `sub` that also holds an image file. -/
def exTree : DirTree :=
  DirTree.node []
    (SubDirs.cons "B"
      (DirTree.node [("direct.jpg", ⟨[7], 0⟩)]
        (SubDirs.cons "sub" (DirTree.node [("a.jpg", ⟨[1], 0⟩)] SubDirs.nil) SubDirs.nil))
      SubDirs.nil)

/-- A fixed instant. -/
def nowW : PyDateTime := ⟨2026, 10, 12, 0, 0, 0⟩

/-- A filesystem with a single image file. -/
def fsOne : FS := [(["d", "a.jpg"], FNode.file ⟨[1, 2], 5⟩)]

/-- A filesystem where a regular file occupies the backup-folder name next to
`bad.jpg`, while `good.jpg` sits in a clean directory. -/
def fsBad : FS :=
  [(["r", "d1", "bad.jpg"], FNode.file ⟨[1], 0⟩),
   (["r", "d1", "original image"], FNode.file ⟨[9], 0⟩),
   (["r", "d2", "good.jpg"], FNode.file ⟨[2, 3], 0⟩)]

/-- One result record of each of the four shapes `_compress_image` produces. -/
def exResults : List ImageResult :=
  [⟨["a.jpg"], 10, 5, t_status_compressed, ".jpg", "2026-10-12 00:00:00"⟩,
   ⟨["b.jpg"], 0, 0, t_status_skipped, ".jpg", ""⟩,
   ⟨["c.png"], 0, 0, t_status_backup_error "FileNotFoundError", ".png", ""⟩,
   ⟨["d.png"], 0, 0, t_status_compress_error "broken stream", ".png", "2026-10-12 00:00:01"⟩]

/-! ### Helper lemmas -/

/-- `String.data` distributes over append. -/
lemma stringDataAppend (s t : String) : (s ++ t).data = s.data ++ t.data := by
  cases s; cases t; rfl

/-- The compression-error status starts with the error keyword. -/
lemma compress_error_starts_error (e : String) :
    pyStartswith (t_status_compress_error e) t_status_error_keyword = true := by
  cases e; rfl

/-- The backup-error status does not start with the error keyword. -/
lemma backup_error_not_starts_error (e : String) :
    pyStartswith (t_status_backup_error e) t_status_error_keyword = false := by
  cases e; rfl

/-- The backup-error status is never the compressed status. -/
lemma backup_error_ne_compressed (e : String) :
    t_status_backup_error e ≠ t_status_compressed := by
  intro h
  have h1 : pyStartswith (t_status_backup_error e) "B" = true := by cases e; rfl
  rw [h] at h1
  exact absurd h1 (by decide)

/-- The compression-error status is never the compressed status. -/
lemma compress_error_ne_compressed (e : String) :
    t_status_compress_error e ≠ t_status_compressed := by
  intro h
  have h1 : pyStartswith (t_status_compress_error e) "E" = true := by cases e; rfl
  rw [h] at h1
  exact absurd h1 (by decide)

/-- Looking up just-written bindings. -/
lemma fsFind_insert_self (fs : FS) (p : FPath) (n : FNode) :
    fsFind (fsInsert fs p n) p = some n := by
  simp [fsFind, fsInsert]

/-- Lookups at other paths are unaffected by a write. -/
lemma fsFind_insert_ne (fs : FS) (p q : FPath) (n : FNode) (h : q ≠ p) :
    fsFind (fsInsert fs q n) p = fsFind fs p := by
  simp [fsFind, fsInsert, h]

/-- The backup destination is never the source file (it sits one component
deeper than the source's directory plus the backup folder). -/
lemma backupPath_ne_source (p : FPath) (bf os : String) : backupPathOf p bf os ≠ p := by
  intro h
  have h2 := congrArg List.length h
  simp [backupPathOf, backupDirOf, dirname] at h2
  omega

/-- The backup directory is never the backup destination. -/
lemma backupDir_ne_backupPath (p : FPath) (bf os : String) :
    backupPathOf p bf os ≠ backupDirOf p bf := by
  intro h
  have h2 := congrArg List.length h
  simp [backupPathOf] at h2

/-- The formatted timestamp is never the empty string. -/
lemma strftime_ne_empty (d : PyDateTime) : strftimeFull d ≠ "" := by
  intro h
  have h2 := congrArg String.data h
  rw [strftimeFull] at h2
  simp [stringDataAppend] at h2

/-- The empty suffix is a suffix of every name. -/
lemma pyEndswith_empty (s : String) : pyEndswith s "" = true := by
  simp [pyEndswith, List.isSuffixOf, List.isPrefixOf]

/-- With the original-suffix skip armed and an empty suffix, every filename is
skipped. -/
lemma should_skip_empty_original (filename skip_suffix : String) (skip_skip : Bool) :
    _should_skip filename "" skip_suffix true skip_skip = true := by
  simp [_should_skip, pyEndswith_empty]

/-- With the skip-suffix skip armed and an empty suffix, every filename is
skipped. -/
lemma should_skip_empty_skip (filename original_suffix : String) (skip_original : Bool) :
    _should_skip filename original_suffix "" skip_original true = true := by
  simp [_should_skip, pyEndswith_empty]

/-- When the Filter skips every filename, the Walker returns nothing. -/
lemma walker_nil_of_skip_all (codec : Codec) (root_path : FPath) (tree : DirTree)
    (backup_folder original_suffix skip_suffix : String) (skip_original skip_skip : Bool)
    (h : ∀ filename, _should_skip filename original_suffix skip_suffix skip_original skip_skip
      = true) :
    _get_all_images codec root_path tree backup_folder original_suffix skip_suffix
      skip_original skip_skip = [] := by
  unfold _get_all_images
  apply List.flatMap_eq_nil_iff.mpr
  intro entry _
  by_cases hg : pyLower (basename entry.1) == pyLower backup_folder
  · simp [hg]
  · simp only [hg, if_false, Bool.false_eq_true]
    apply List.filterMap_eq_nil_iff.mpr
    intro f _
    simp [h f.1]

/-- Claim C6: the Filter returns true exactly when the extension-stripped base
name ends with the original-suffix and skip-original is enabled, or ends with
the skip-suffix and skip-skip is enabled; with both flags disabled it returns
false for every filename.  (It is a plain function of its arguments.) -/
theorem filter_iff_suffix_rules :
    (∀ filename original_suffix skip_suffix skip_original skip_skip,
      _should_skip filename original_suffix skip_suffix skip_original skip_skip =
        (skip_original && pyEndswith (splitext filename).1 original_suffix ||
         skip_skip && pyEndswith (splitext filename).1 skip_suffix)) ∧
    (∀ filename original_suffix skip_suffix,
      _should_skip filename original_suffix skip_suffix false false = false) := by
  constructor
  · intro filename original_suffix skip_suffix skip_original skip_skip
    unfold _should_skip
    cases h1 : skip_original && pyEndswith (splitext filename).1 original_suffix <;>
      cases h2 : skip_skip && pyEndswith (splitext filename).1 skip_suffix <;>
        simp [h1, h2]
  · intro filename original_suffix skip_suffix
    simp [_should_skip]

/-- Claim C10: with skip-original enabled and an empty original-suffix the
Filter accepts (skips) every filename and the Walker returns no files;
symmetrically for skip-skip with an empty skip-suffix. -/
theorem empty_suffix_skips_everything :
    (∀ filename skip_suffix skip_skip,
      _should_skip filename "" skip_suffix true skip_skip = true) ∧
    (∀ filename original_suffix skip_original,
      _should_skip filename original_suffix "" skip_original true = true) ∧
    (∀ codec root_path tree backup_folder skip_suffix skip_skip,
      _get_all_images codec root_path tree backup_folder "" skip_suffix true skip_skip = []) ∧
    (∀ codec root_path tree backup_folder original_suffix skip_original,
      _get_all_images codec root_path tree backup_folder original_suffix "" skip_original true
        = []) := by
  refine ⟨should_skip_empty_original, should_skip_empty_skip, ?_, ?_⟩
  · intro codec root_path tree backup_folder skip_suffix skip_skip
    exact walker_nil_of_skip_all codec root_path tree backup_folder "" skip_suffix true
      skip_skip (fun filename => should_skip_empty_original filename skip_suffix skip_skip)
  · intro codec root_path tree backup_folder original_suffix skip_original
    exact walker_nil_of_skip_all codec root_path tree backup_folder original_suffix ""
      skip_original true (fun filename =>
        should_skip_empty_skip filename original_suffix skip_original)

/-- Claim C3 (amended): every path the Walker returns lies directly in a
walked directory whose own base name does not case-insensitively equal the
backup-folder name — the exclusion applies to the file's immediate parent
directory only, because the walk does not prune the subtree below a matching
directory. -/
theorem walker_excludes_matching_parent (codec : Codec) (root_path : FPath) (tree : DirTree)
    (backup_folder original_suffix skip_suffix : String) (skip_original skip_skip : Bool)
    (p : FPath)
    (hp : p ∈ _get_all_images codec root_path tree backup_folder original_suffix skip_suffix
      skip_original skip_skip) :
    p ≠ [] ∧ (pyLower (basename (dirname p)) == pyLower backup_folder) = false := by
  unfold _get_all_images at hp
  obtain ⟨entry, _, hmem⟩ := List.mem_flatMap.mp hp
  by_cases hg : pyLower (basename entry.1) == pyLower backup_folder
  · simp [hg] at hmem
  · simp only [hg, if_false, Bool.false_eq_true] at hmem
    obtain ⟨f, _, heq⟩ := List.mem_filterMap.mp hmem
    simp at heq
    obtain ⟨-, hpe⟩ := heq
    subst hpe
    refine ⟨by simp, ?_⟩
    simpa [dirname] using hg

/-- C3 witness: on the concrete tree, the returned path's immediate parent is
`sub`, which does not match the backup folder `B`. -/
theorem walker_excludes_matching_parent_witness :
    (["root", "B", "sub", "a.jpg"] : FPath) ≠ [] ∧
      (pyLower (basename (dirname (["root", "B", "sub", "a.jpg"] : FPath))) == pyLower "B")
        = false :=
  walker_excludes_matching_parent exCodec ["root"] exTree "B" "_original" "_skip" true true
    ["root", "B", "sub", "a.jpg"] (by decide)

/-- C3 counterexample: the Walker returns `root/B/sub/a.jpg`, a file nested
below the backup-named directory `B` (while the direct child `root/B/direct.jpg`
is excluded) — the exclusion does not hold at every depth. -/
theorem walker_returns_nested_backup_file :
    _get_all_images exCodec ["root"] exTree "B" "_original" "_skip" true true =
      [["root", "B", "sub", "a.jpg"]] ∧
    "B" ∈ (["root", "B", "sub", "a.jpg"] : FPath).dropLast := by
  constructor
  · decide
  · decide

/-- Claim C5: Backup Manager idempotence.  On a filesystem where the file
exists, no backup destination exists yet, and nothing other than a directory
occupies the backup-directory path, the first call copies the file (bytes and
modification time) to the destination and returns success with the backup
path; a second call on the resulting state returns the skip outcome and the
state unchanged — no write at all, so the backup file (and its modification
time) is untouched. -/
theorem backup_idempotent (fs : FS) (p : FPath) (bf os : String) (fd : FileData)
    (hfile : fsFind fs p = some (FNode.file fd))
    (hdir : fsFind fs (backupDirOf p bf) = none ∨ fsFind fs (backupDirOf p bf) = some FNode.dir)
    (hnob : fsFind fs (backupPathOf p bf os) = none) :
    ∃ fs2, _backup_image fs p bf os =
        Except.ok ((true, pathToString (backupPathOf p bf os)), fs2) ∧
      fsFind fs2 (backupPathOf p bf os) = some (FNode.file fd) ∧
      _backup_image fs2 p bf os = Except.ok ((false, t_status_skipped), fs2) := by
  have hbdbp : backupDirOf p bf ≠ backupPathOf p bf os :=
    (backupDir_ne_backupPath p bf os).symm
  have hbdp : backupDirOf p bf ≠ p := by
    intro h
    rcases hdir with h1 | h1 <;> rw [h, hfile] at h1 <;> cases h1
  rcases hdir with h1 | h1
  · refine ⟨fsInsert (fsInsert fs (backupDirOf p bf) FNode.dir) (backupPathOf p bf os)
      (FNode.file fd), ?_, ?_, ?_⟩
    · simp only [_backup_image, makedirs, h1,
        fsFind_insert_ne fs (backupPathOf p bf os) (backupDirOf p bf) FNode.dir hbdbp, hnob,
        Option.isSome_none, Bool.false_eq_true, if_false, copy2,
        fsFind_insert_ne fs p (backupDirOf p bf) FNode.dir hbdp, hfile]
    · exact fsFind_insert_self _ _ _
    · simp only [_backup_image, makedirs,
        fsFind_insert_ne (fsInsert fs (backupDirOf p bf) FNode.dir) (backupDirOf p bf)
          (backupPathOf p bf os) (FNode.file fd) hbdbp.symm,
        fsFind_insert_self, fsFind_insert_self _ _ _, Option.isSome_some, if_true]
  · refine ⟨fsInsert fs (backupPathOf p bf os) (FNode.file fd), ?_, ?_, ?_⟩
    · simp only [_backup_image, makedirs, h1, hnob, Option.isSome_none, Bool.false_eq_true,
        if_false, copy2, hfile]
    · exact fsFind_insert_self _ _ _
    · simp only [_backup_image, makedirs,
        fsFind_insert_ne fs (backupDirOf p bf) (backupPathOf p bf os) (FNode.file fd)
          hbdbp.symm, h1, fsFind_insert_self _ _ _, Option.isSome_some, if_true]

/-- C5 witness: the concrete single-file filesystem. -/
theorem backup_idempotent_witness :
    ∃ fs2, _backup_image fsOne ["d", "a.jpg"] "original image" "_original" =
        Except.ok ((true, pathToString (backupPathOf ["d", "a.jpg"] "original image"
          "_original")), fs2) ∧
      fsFind fs2 (backupPathOf ["d", "a.jpg"] "original image" "_original") =
        some (FNode.file ⟨[1, 2], 5⟩) ∧
      _backup_image fs2 ["d", "a.jpg"] "original image" "_original" =
        Except.ok ((false, t_status_skipped), fs2) :=
  backup_idempotent fsOne ["d", "a.jpg"] "original image" "_original" ⟨[1, 2], 5⟩
    (by decide) (Or.inl (by decide)) (by decide)

/-- A successful-or-failed backup call never rebinds the source file: the only
writes are the backup directory and the backup destination, which are distinct
paths from the source. -/
lemma backup_preserves_source (fs : FS) (p : FPath) (bf os : String) (fd : FileData)
    (flag : Bool) (st : String) (fs1 : FS)
    (hfile : fsFind fs p = some (FNode.file fd))
    (h : _backup_image fs p bf os = Except.ok ((flag, st), fs1)) :
    fsFind fs1 p = some (FNode.file fd) := by
  simp only [_backup_image] at h
  cases hm : fsFind fs (backupDirOf p bf) with
  | none =>
    have hbdp : backupDirOf p bf ≠ p := by
      intro he; rw [he, hfile] at hm; cases hm
    rw [show makedirs fs (backupDirOf p bf) =
        Except.ok (fsInsert fs (backupDirOf p bf) FNode.dir) by simp [makedirs, hm]] at h
    have hsrc : fsFind (fsInsert fs (backupDirOf p bf) FNode.dir) p =
        some (FNode.file fd) := by
      rw [fsFind_insert_ne fs p (backupDirOf p bf) FNode.dir hbdp, hfile]
    by_cases hex : (fsFind (fsInsert fs (backupDirOf p bf) FNode.dir)
        (backupPathOf p bf os)).isSome
    · simp only [hex, if_true] at h
      obtain ⟨-, rfl⟩ : ((false, t_status_skipped) = (flag, st)) ∧
          fsInsert fs (backupDirOf p bf) FNode.dir = fs1 := by
        have := Except.ok.inj h
        exact ⟨congrArg Prod.fst this, congrArg Prod.snd this⟩
      exact hsrc
    · simp only [hex, if_false] at h
      rw [show copy2 (fsInsert fs (backupDirOf p bf) FNode.dir) p (backupPathOf p bf os) =
          Except.ok (fsInsert (fsInsert fs (backupDirOf p bf) FNode.dir)
            (backupPathOf p bf os) (FNode.file fd)) by simp [copy2, hsrc]] at h
      obtain rfl : fsInsert (fsInsert fs (backupDirOf p bf) FNode.dir)
          (backupPathOf p bf os) (FNode.file fd) = fs1 :=
        congrArg Prod.snd (Except.ok.inj h)
      rw [fsFind_insert_ne _ p (backupPathOf p bf os) (FNode.file fd)
        (backupPath_ne_source p bf os)]
      exact hsrc
  | some node =>
    cases node with
    | dir =>
      rw [show makedirs fs (backupDirOf p bf) = Except.ok fs by simp [makedirs, hm]] at h
      by_cases hex : (fsFind fs (backupPathOf p bf os)).isSome
      · simp only [hex, if_true] at h
        obtain rfl : fs = fs1 := congrArg Prod.snd (Except.ok.inj h)
        exact hfile
      · simp only [hex, if_false] at h
        rw [show copy2 fs p (backupPathOf p bf os) =
            Except.ok (fsInsert fs (backupPathOf p bf os) (FNode.file fd)) by
          simp [copy2, hfile]] at h
        obtain rfl : fsInsert fs (backupPathOf p bf os) (FNode.file fd) = fs1 :=
          congrArg Prod.snd (Except.ok.inj h)
        rw [fsFind_insert_ne _ p (backupPathOf p bf os) (FNode.file fd)
          (backupPath_ne_source p bf os)]
        exact hfile
    | file fd2 =>
      rw [show makedirs fs (backupDirOf p bf) = Except.error PyExn.fileExists by
        simp [makedirs, hm]] at h
      cases h

/-- Claim C4: with backup enabled, a failed or skipped backup short-circuits
the Compressor — the record carries zero sizes, the backup's reported status
and an empty timestamp, and the source file is untouched — while the re-encode
runs only on the post-backup state after the Backup Manager returned
success. -/
theorem compress_only_after_backup (codec : Codec) (now : PyDateTime) (fs : FS) (p : FPath)
    (q : Nat) (bf os : String) (fd : FileData)
    (hfile : fsFind fs p = some (FNode.file fd)) :
    (∀ st fs1, _backup_image fs p bf os = Except.ok ((false, st), fs1) →
      _compress_image codec now fs p q true bf os =
        Except.ok (⟨p, 0, 0, st, pyLower (splitext (basename p)).2, ""⟩, fs1) ∧
      fsFind fs1 p = some (FNode.file fd)) ∧
    (∀ st fs1, _backup_image fs p bf os = Except.ok ((true, st), fs1) →
      _compress_image codec now fs p q true bf os =
        Except.ok (compressPhase codec now fs1 p q (pyLower (splitext (basename p)).2))) := by
  constructor
  · intro st fs1 h
    refine ⟨?_, backup_preserves_source fs p bf os fd false st fs1 hfile h⟩
    simp only [_compress_image, h, if_true, Bool.false_eq_true, if_false]
  · intro st fs1 h
    simp only [_compress_image, h, if_true]

/-- C4 witness: a filesystem where the backup destination already exists, so
the backup is skipped and the file is left uncompressed. -/
theorem compress_only_after_backup_witness :
    _compress_image exCodec nowW
        (fsInsert fsOne (backupPathOf ["d", "a.jpg"] "original image" "_original")
          (FNode.file ⟨[1, 2], 5⟩))
        ["d", "a.jpg"] 85 true "original image" "_original" =
      Except.ok (⟨["d", "a.jpg"], 0, 0, t_status_skipped,
        pyLower (splitext (basename ["d", "a.jpg"])).2, ""⟩,
        fsInsert (fsInsert fsOne (backupPathOf ["d", "a.jpg"] "original image" "_original")
          (FNode.file ⟨[1, 2], 5⟩)) (backupDirOf ["d", "a.jpg"] "original image") FNode.dir) ∧
    fsFind (fsInsert (fsInsert fsOne (backupPathOf ["d", "a.jpg"] "original image" "_original")
        (FNode.file ⟨[1, 2], 5⟩)) (backupDirOf ["d", "a.jpg"] "original image") FNode.dir)
      ["d", "a.jpg"] = some (FNode.file ⟨[1, 2], 5⟩) :=
  (compress_only_after_backup exCodec nowW
      (fsInsert fsOne (backupPathOf ["d", "a.jpg"] "original image" "_original")
        (FNode.file ⟨[1, 2], 5⟩))
      ["d", "a.jpg"] 85 "original image" "_original" ⟨[1, 2], 5⟩ (by decide)).1
    t_status_skipped _ (by decide)

/-- Claim C7: when the decode/re-encode attempt raises, the Compressor returns
a record with both sizes zero, the compression-error status carrying the error
text, and the (never empty) failure-time timestamp — whether backup was
disabled, or enabled and just succeeded. -/
theorem codec_failure_record (codec : Codec) (now : PyDateTime) (fs : FS) (p : FPath)
    (q : Nat) (bf os : String) (e : PyExn)
    (h : compressAttempt codec (epochOf now) fs p q = Except.error e) :
    _compress_image codec now fs p q false bf os =
      Except.ok (⟨p, 0, 0, t_status_compress_error (PyExn.render e),
        pyLower (splitext (basename p)).2, strftimeFull now⟩, fs) ∧
    (∀ fs0 st, _backup_image fs0 p bf os = Except.ok ((true, st), fs) →
      _compress_image codec now fs0 p q true bf os =
        Except.ok (⟨p, 0, 0, t_status_compress_error (PyExn.render e),
          pyLower (splitext (basename p)).2, strftimeFull now⟩, fs)) ∧
    strftimeFull now ≠ "" := by
  refine ⟨?_, ?_, strftime_ne_empty now⟩
  · simp only [_compress_image, Bool.false_eq_true, if_false, compressPhase, h]
  · intro fs0 st hb
    simp only [_compress_image, hb, if_true, compressPhase, h]

/-- C7 witness: a filesystem whose only entry at the path is an empty (hence
undecodable) file. -/
theorem codec_failure_record_witness :
    _compress_image exCodec nowW [(["d", "bad.jpg"], FNode.file ⟨[], 0⟩)] ["d", "bad.jpg"] 85
        false "original image" "_original" =
      Except.ok (⟨["d", "bad.jpg"], 0, 0,
        t_status_compress_error (PyExn.render (PyExn.codecError "cannot identify image file")),
        pyLower (splitext (basename ["d", "bad.jpg"])).2, strftimeFull nowW⟩,
        [(["d", "bad.jpg"], FNode.file ⟨[], 0⟩)]) ∧
    strftimeFull nowW ≠ "" :=
  ⟨(codec_failure_record exCodec nowW [(["d", "bad.jpg"], FNode.file ⟨[], 0⟩)]
      ["d", "bad.jpg"] 85 "original image" "_original"
      (PyExn.codecError "cannot identify image file") (by decide)).1,
   (codec_failure_record exCodec nowW [(["d", "bad.jpg"], FNode.file ⟨[], 0⟩)]
      ["d", "bad.jpg"] 85 "original image" "_original"
      (PyExn.codecError "cannot identify image file") (by decide)).2.2⟩

/-- A successful compression attempt yields positive sizes, provided the codec
only decodes nonempty byte strings and only encodes to nonempty byte
strings. -/
lemma compressAttempt_pos (codec : Codec) (en : Nat) (fs : FS) (p : FPath) (q : Nat)
    (sb sa : Nat) (fs2 : FS)
    (hdec : ∀ bs, codec.decodes bs = true → 0 < bs.length)
    (henc : ∀ bs qq out, codec.encode bs qq = Except.ok out → 0 < out.length)
    (h : compressAttempt codec en fs p q = Except.ok (sb, sa, fs2)) :
    0 < sb ∧ 0 < sa := by
  unfold compressAttempt at h
  cases hf : fsFind fs p with
  | none => rw [hf] at h; cases h
  | some node =>
    cases node with
    | dir => rw [hf] at h; cases h
    | file fd =>
      simp only [hf] at h
      by_cases hd : codec.decodes fd.bytes = true
      · rw [if_pos hd] at h
        cases he : codec.encode fd.bytes q with
        | ok out =>
          rw [he] at h
          obtain ⟨rfl, rfl, -⟩ : fd.bytes.length = sb ∧ out.length = sa ∧ _ = fs2 := by
            have h2 := Except.ok.inj h
            exact ⟨congrArg (fun x => x.1) h2, congrArg (fun x => x.2.1) h2,
              congrArg (fun x => x.2.2) h2⟩
          exact ⟨hdec fd.bytes hd, henc fd.bytes q out he⟩
        | error msg => rw [he] at h; cases h
      · rw [if_neg hd] at h; cases h

/-- A backup call that reports failure never reports the compressed status:
it reports the skipped status or a backup-error status. -/
lemma backup_status_ne_compressed (fs : FS) (p : FPath) (bf os : String) (st : String)
    (fs1 : FS) (hb : _backup_image fs p bf os = Except.ok ((false, st), fs1)) :
    st ≠ t_status_compressed := by
  simp only [_backup_image] at hb
  cases hm : makedirs fs (backupDirOf p bf) with
  | error e => rw [hm] at hb; cases hb
  | ok fsA =>
    simp only [hm] at hb
    by_cases hex : (fsFind fsA (backupPathOf p bf os)).isSome
    · rw [if_pos hex] at hb
      obtain rfl : t_status_skipped = st :=
        congrArg (fun x => x.1.2) (Except.ok.inj hb)
      decide
    · rw [if_neg hex] at hb
      cases hc : copy2 fsA p (backupPathOf p bf os) with
      | ok fsB =>
        rw [hc] at hb
        have h2 : true = false := congrArg (fun x => x.1.1) (Except.ok.inj hb)
        cases h2
      | error e =>
        rw [hc] at hb
        obtain rfl : t_status_backup_error (PyExn.render e) = st :=
          congrArg (fun x => x.1.2) (Except.ok.inj hb)
        exact backup_error_ne_compressed (PyExn.render e)

/-- Claim C9: a record with the successfully-compressed status has both sizes
positive (given that the codec decodes and produces only nonempty byte
strings); every other record has both sizes zero. -/
theorem sizes_all_or_nothing (codec : Codec) (now : PyDateTime) (fs : FS) (p : FPath)
    (q : Nat) (b : Bool) (bf os : String) (r : ImageResult) (fs2 : FS)
    (hdec : ∀ bs, codec.decodes bs = true → 0 < bs.length)
    (henc : ∀ bs qq out, codec.encode bs qq = Except.ok out → 0 < out.length)
    (h : _compress_image codec now fs p q b bf os = Except.ok (r, fs2)) :
    (r.status = t_status_compressed → 0 < r.size_before ∧ 0 < r.size_after) ∧
    (r.status ≠ t_status_compressed → r.size_before = 0 ∧ r.size_after = 0) := by
  have phase : ∀ fsx, compressPhase codec now fsx p q (pyLower (splitext (basename p)).2)
      = (r, fs2) →
      (r.status = t_status_compressed → 0 < r.size_before ∧ 0 < r.size_after) ∧
      (r.status ≠ t_status_compressed → r.size_before = 0 ∧ r.size_after = 0) := by
    intro fsx hp2
    unfold compressPhase at hp2
    cases ha : compressAttempt codec (epochOf now) fsx p q with
    | ok triple =>
      rw [ha] at hp2
      obtain rfl : (⟨p, triple.1, triple.2.1, t_status_compressed,
          pyLower (splitext (basename p)).2, strftimeFull now⟩ : ImageResult) = r :=
        congrArg Prod.fst hp2
      have hpos := compressAttempt_pos codec (epochOf now) fsx p q triple.1 triple.2.1
        triple.2.2 hdec henc (by rw [ha])
      exact ⟨fun _ => hpos, fun hne => absurd rfl hne⟩
    | error e =>
      rw [ha] at hp2
      obtain rfl : (⟨p, 0, 0, t_status_compress_error (PyExn.render e),
          pyLower (splitext (basename p)).2, strftimeFull now⟩ : ImageResult) = r :=
        congrArg Prod.fst hp2
      exact ⟨fun hc => absurd hc (compress_error_ne_compressed (PyExn.render e)),
        fun _ => ⟨rfl, rfl⟩⟩
  cases b with
  | false =>
    simp only [_compress_image, Bool.false_eq_true, if_false] at h
    exact phase fs (Except.ok.inj h)
  | true =>
    simp only [_compress_image, if_true] at h
    cases hb : _backup_image fs p bf os with
    | error e => rw [hb] at h; cases h
    | ok pair =>
      rw [hb] at h
      obtain ⟨⟨flag, st⟩, fs1⟩ := pair
      cases flag with
      | true =>
        simp only [if_true] at h
        exact phase fs1 (Except.ok.inj h)
      | false =>
        simp only [Bool.false_eq_true, if_false] at h
        obtain rfl : (⟨p, 0, 0, st, pyLower (splitext (basename p)).2, ""⟩ : ImageResult)
            = r := congrArg Prod.fst (Except.ok.inj h)
        refine ⟨fun hc => ?_, fun _ => ⟨rfl, rfl⟩⟩
        exact absurd hc (backup_status_ne_compressed fs p bf os st fs1 hb)

/-- C9 witness: the concrete one-file filesystem, compressed successfully. -/
theorem sizes_all_or_nothing_witness :
    ((⟨["d", "a.jpg"], 2, 3, t_status_compressed, ".jpg", strftimeFull nowW⟩ :
        ImageResult).status = t_status_compressed →
      0 < (⟨["d", "a.jpg"], 2, 3, t_status_compressed, ".jpg", strftimeFull nowW⟩ :
        ImageResult).size_before ∧
      0 < (⟨["d", "a.jpg"], 2, 3, t_status_compressed, ".jpg", strftimeFull nowW⟩ :
        ImageResult).size_after) ∧
    ((⟨["d", "a.jpg"], 2, 3, t_status_compressed, ".jpg", strftimeFull nowW⟩ :
        ImageResult).status ≠ t_status_compressed →
      (⟨["d", "a.jpg"], 2, 3, t_status_compressed, ".jpg", strftimeFull nowW⟩ :
        ImageResult).size_before = 0 ∧
      (⟨["d", "a.jpg"], 2, 3, t_status_compressed, ".jpg", strftimeFull nowW⟩ :
        ImageResult).size_after = 0) :=
  sizes_all_or_nothing exCodec nowW fsOne ["d", "a.jpg"] 85 false "original image" "_original"
    ⟨["d", "a.jpg"], 2, 3, t_status_compressed, ".jpg", strftimeFull nowW⟩
    (fsInsert fsOne ["d", "a.jpg"] (FNode.file ⟨[1, 1, 2], epochOf nowW⟩))
    (fun bs h => of_decide_eq_true h)
    (fun bs qq out h => by
      simp only [exCodec] at h
      obtain rfl := Except.ok.inj h
      simp)
    (by decide)

/-- Whatever the Dispatcher loop returns successfully has one record per
submitted file. -/
lemma dispatchAll_ok_length (codec : Codec) (now : PyDateTime) (q : Nat) (b : Bool)
    (bf : String) :
    ∀ (files : List FPath) (fs : FS) (rs : List ImageResult) (fs2 : FS),
      dispatchAll codec now fs files q b bf = Except.ok (rs, fs2) →
      rs.length = files.length := by
  intro files
  induction files with
  | nil =>
    intro fs rs fs2 h
    simp only [dispatchAll] at h
    obtain rfl : ([] : List ImageResult) = rs := congrArg Prod.fst (Except.ok.inj h)
    rfl
  | cons f rest ih =>
    intro fs rs fs2 h
    simp only [dispatchAll] at h
    cases hc : _compress_image codec now fs f q b bf "_original" with
    | error e => rw [hc] at h; cases h
    | ok pair =>
      rw [hc] at h
      cases hrec : dispatchAll codec now pair.2 rest q b bf with
      | error e => simp only [hrec] at h; cases h
      | ok pair2 =>
        simp only [hrec] at h
        obtain rfl : pair.1 :: pair2.1 = rs := congrArg Prod.fst (Except.ok.inj h)
        simp [ih pair.2 pair2.1 pair2.2 (by rw [hrec])]

/-- With backup disabled no per-file step can leak an exception, so the
Dispatcher loop always completes, with one record per submitted file. -/
lemma dispatchAll_nobackup_total (codec : Codec) (now : PyDateTime) (q : Nat) (bf : String) :
    ∀ (files : List FPath) (fs : FS),
      ∃ rs fs2, dispatchAll codec now fs files q false bf = Except.ok (rs, fs2) ∧
        rs.length = files.length := by
  intro files
  induction files with
  | nil => intro fs; exact ⟨[], fs, rfl, rfl⟩
  | cons f rest ih =>
    intro fs
    obtain ⟨rs, fs2, hd, hl⟩ :=
      ih (compressPhase codec now fs f q (pyLower (splitext (basename f)).2)).2
    refine ⟨(compressPhase codec now fs f q (pyLower (splitext (basename f)).2)).1 :: rs,
      fs2, ?_, by simp [hl]⟩
    simp only [dispatchAll, _compress_image, Bool.false_eq_true, if_false, hd]

/-- Claim C1 (amended): every successful dispatch yields exactly one record
per submitted file, and with backup disabled the dispatch always succeeds;
but a leaked backup exception (the unguarded `os.makedirs`) aborts the
collection — see the counterexample. -/
theorem dispatcher_record_count (codec : Codec) (now : PyDateTime) (fs : FS)
    (files : List FPath) (q : Nat) (b : Bool) (bf : String) :
    (∀ rs fs2, dispatchAll codec now fs files q b bf = Except.ok (rs, fs2) →
      rs.length = files.length) ∧
    (b = false → ∃ rs fs2, dispatchAll codec now fs files q b bf = Except.ok (rs, fs2) ∧
      rs.length = files.length) := by
  constructor
  · intro rs fs2 h
    exact dispatchAll_ok_length codec now q b bf files fs rs fs2 h
  · rintro rfl
    exact dispatchAll_nobackup_total codec now q bf files fs

/-- C1 witness: one file, backup disabled, exactly one record. -/
theorem dispatcher_record_count_witness :
    ∃ rs fs2, dispatchAll exCodec nowW fsOne [["d", "a.jpg"]] 85 false "original image" =
      Except.ok (rs, fs2) ∧ rs.length = [["d", "a.jpg"]].length :=
  (dispatcher_record_count exCodec nowW fsOne [["d", "a.jpg"]] 85 false "original image").2 rfl

/-- C1 counterexample: two submitted files, zero result records.  The first
file's backup hits a regular file occupying the backup-folder path, the
`FileExistsError` from `os.makedirs` leaks through `future.result()`, and the
second file's record is lost with it. -/
theorem dispatcher_loses_records :
    dispatchAll exCodec nowW fsBad [["r", "d1", "bad.jpg"], ["r", "d2", "good.jpg"]] 85 true
      "original image" = Except.error PyExn.fileExists := by
  decide

/-- Claim C2 (the code as written): `argparse` substitutes each flag's own
parser default when the flag is absent from the command line, so `get_param`
sees a non-`none` CLI value and the configuration-file entry is never
consulted for any parameter that has a parser default — here shown in general
and on `compress_quality` (parser default 85, config value 50, effective value
85). -/
theorem config_layer_never_reached :
    (∀ (α : Type) (d : α) (config_value dflt : Option α),
      effectiveParam none (some d) config_value dflt = some d) ∧
    effectiveParam none (some 85) (some 50) (some (85 : Nat)) = some 85 := by
  exact ⟨fun α d config_value dflt => rfl, rfl⟩

/-- Each outcome-shaped record sets the Reporter's category flags in exactly
one of four patterns: success, named skip, empty-timestamp non-skip, or
error-prefixed. -/
lemma outcome_flags (r : ImageResult) (h : IsOutcome r) :
    (isSuccessRec r = true ∧ isSkipRec r = false ∧ isErrorRec r = false ∧
      tsEmptyRec r = false) ∨
    (isSuccessRec r = false ∧ isSkipRec r = true ∧ isErrorRec r = false ∧
      tsEmptyRec r = true) ∨
    (isSuccessRec r = false ∧ isSkipRec r = false ∧ isErrorRec r = false ∧
      tsEmptyRec r = true) ∨
    (isSuccessRec r = false ∧ isSkipRec r = false ∧ isErrorRec r = true ∧
      tsEmptyRec r = false) := by
  rcases h with ⟨hst, hts⟩ | ⟨hst, hts⟩ | ⟨e, hsafe, hst, hts⟩ | ⟨e, hsafe, hst, hts⟩
  · refine Or.inl ⟨?_, ?_, ?_, ?_⟩
    · simp [isSuccessRec, hst]
    · rw [isSkipRec, hst]; decide
    · rw [isErrorRec, hst]; decide
    · simp only [tsEmptyRec]; exact beq_eq_false_iff_ne.mpr hts
  · refine Or.inr (Or.inl ⟨?_, ?_, ?_, ?_⟩)
    · rw [isSuccessRec, hst]; decide
    · rw [isSkipRec, hst]; decide
    · rw [isErrorRec, hst]; decide
    · simp [tsEmptyRec, hts]
  · refine Or.inr (Or.inr (Or.inl ⟨?_, ?_, ?_, ?_⟩))
    · rw [isSuccessRec, hst]
      exact beq_eq_false_iff_ne.mpr (backup_error_ne_compressed e)
    · rw [isSkipRec, hst]; exact hsafe
    · rw [isErrorRec, hst]; exact backup_error_not_starts_error e
    · simp [tsEmptyRec, hts]
  · refine Or.inr (Or.inr (Or.inr ⟨?_, ?_, ?_, ?_⟩))
    · rw [isSuccessRec, hst]
      exact beq_eq_false_iff_ne.mpr (compress_error_ne_compressed e)
    · rw [isSkipRec, hst]; exact hsafe
    · rw [isErrorRec, hst]; exact compress_error_starts_error e
    · simp only [tsEmptyRec]; exact beq_eq_false_iff_ne.mpr hts

/-- The four per-category counts over an outcome-shaped result list: the
success/skip/error counts plus the record-level unreadable count partition the
list, and the empty-timestamp count splits into skips plus unreadables. -/
lemma counts_pieces (results : List ImageResult) (h : ∀ r ∈ results, IsOutcome r) :
    count_success results + count_skipped results + count_error results +
      (results.filter isUnreadableRec).length = results.length ∧
    (results.filter tsEmptyRec).length =
      count_skipped results + (results.filter isUnreadableRec).length := by
  induction results with
  | nil => simp [count_success, count_skipped, count_error]
  | cons r rest ih =>
    obtain ⟨h1, h2⟩ := ih (fun x hx => h x (by simp [hx]))
    rcases outcome_flags r (h r (by simp)) with h4 | h4 | h4 | h4 <;>
      obtain ⟨ha, hb, hc, hd⟩ := h4 <;>
      simp only [count_success, count_skipped, count_error, List.filter_cons, ha, hb, hc, hd,
        isUnreadableRec, Bool.not_true, Bool.not_false, Bool.true_and, Bool.false_and,
        Bool.and_false, Bool.and_true, List.length_cons, if_true, if_false,
        Bool.false_eq_true, reduceIte] at h1 h2 ⊢ <;>
      exact ⟨by omega, by omega⟩

/-- Claim C8: on an outcome-shaped result list the Reporter's per-category
counts sum to the total record count, the subtraction-derived unreadable count
equals a direct record-level count, and every record falls in exactly one of
the four categories. -/
theorem reporter_partition (results : List ImageResult) (h : ∀ r ∈ results, IsOutcome r) :
    count_success results + count_skipped results + count_error results +
      count_unreadable results = results.length ∧
    count_unreadable results = (results.filter isUnreadableRec).length ∧
    ∀ r ∈ results,
      ((if isSuccessRec r then 1 else 0) + (if isSkipRec r then 1 else 0) +
        (if isErrorRec r then 1 else 0) + (if isUnreadableRec r then 1 else 0) : Nat) = 1 := by
  obtain ⟨h1, h2⟩ := counts_pieces results h
  have h3 : count_unreadable results = (results.filter isUnreadableRec).length := by
    unfold count_unreadable
    omega
  refine ⟨by omega, h3, ?_⟩
  intro r hr
  rcases outcome_flags r (h r hr) with h4 | h4 | h4 | h4 <;>
    obtain ⟨ha, hb, hc, hd⟩ := h4 <;>
    simp [isUnreadableRec, ha, hb, hc, hd]

/-- C8 witness: the four-record list, one record of each shape. -/
theorem reporter_partition_witness :
    count_success exResults + count_skipped exResults + count_error exResults +
      count_unreadable exResults = exResults.length :=
  (reporter_partition exResults (by
    intro r hr
    simp only [exResults, List.mem_cons, List.not_mem_nil, or_false] at hr
    rcases hr with rfl | rfl | rfl | rfl
    · exact Or.inl ⟨rfl, by decide⟩
    · exact Or.inr (Or.inl ⟨rfl, rfl⟩)
    · exact Or.inr (Or.inr (Or.inl ⟨"FileNotFoundError", by decide, rfl, rfl⟩))
    · exact Or.inr (Or.inr (Or.inr ⟨"broken stream", by decide, rfl, by decide⟩)))).1
